import Mathlib

/-
Verification of the pipeline scheduling engine in
colossalai/pipeline/rpc/_pipeline_base.py.

The Python classes are shallowly embedded as Lean structures and pure
functions.  Tensors, futures and remote values are abstracted by a type
parameter alpha: a resolved future is `some v`, an unresolved one `none`.
Python dicts are modelled as association lists with lookup / set / erase
helpers that realize the dict semantics (at most one binding per key).
Blocking waits are modelled by returning `none` (the call cannot complete
in the given state); fatal assertions by an error value.
-/

/-- Mirror of `Phase` (Enum) in _pipeline_base.py. -/
inductive Phase where
  | FORWARD
  | BACKWARD
  | UPDATE
  | INPUT
deriving DecidableEq, Repr

/-- Mirror of `UniqueKey`: composite identity (microbatch_id, phase),
equality and hash by value. -/
structure UniqueKey where
  microbatch_id : Nat
  phase : Phase
deriving DecidableEq, Repr

/-- Mirror of `WorkItem`.  `args` abstracts the positional argument /
subscribed-future list; `output` is the single-assignment future
(`none` = unresolved); `batch_id` is always None in the source and is
omitted. -/
structure WorkItem (α : Type) where
  stage_id : Nat
  phase : Phase
  args : List α
  output : Option α
  microbatch_id : Nat
  num_microbatches : Nat
  forward_only : Bool
  refcount : Nat := 0
deriving DecidableEq, Repr

/-- Mirror of `BackwardCache`.  kwargs are folded into
`stage_input_args` (non-entry stages always receive kwargs = {}). -/
structure BackwardCache (α : Type) where
  checkpoint : Bool
  stage_input_args : List α
  stage_outputs : α
deriving DecidableEq, Repr

/-- Lookup in a Python-dict model (association list). -/
def listFind {κ ν : Type} [DecidableEq κ] (k : κ) : List (κ × ν) → Option ν
  | [] => none
  | (k', v) :: rest => if k' = k then some v else listFind k rest

/-- Removal of a key from a Python-dict model (`dict.pop`). -/
def listErase {κ ν : Type} [DecidableEq κ] (k : κ) : List (κ × ν) → List (κ × ν)
  | [] => []
  | (k', v) :: rest => if k' = k then listErase k rest else (k', v) :: listErase k rest

/-- Assignment `d[k] = v` in a Python-dict model. -/
def listSet {κ ν : Type} [DecidableEq κ] (k : κ) (v : ν) (l : List (κ × ν)) :
    List (κ × ν) :=
  (k, v) :: listErase k l

theorem listFind_listErase_self {κ ν : Type} [DecidableEq κ] (k : κ)
    (l : List (κ × ν)) : listFind k (listErase k l) = none := by
  induction l with
  | nil => rfl
  | cons p rest ih =>
    obtain ⟨k', v⟩ := p
    by_cases h : k' = k
    · simp [listErase, h, ih]
    · simp [listErase, listFind, h, ih]

theorem listFind_listErase_ne {κ ν : Type} [DecidableEq κ] {k k' : κ}
    (l : List (κ × ν)) (h : k' ≠ k) :
    listFind k' (listErase k l) = listFind k' l := by
  induction l with
  | nil => rfl
  | cons p rest ih =>
    obtain ⟨k₀, v⟩ := p
    by_cases hk : k₀ = k
    · subst hk
      have : k₀ ≠ k' := fun hc => h hc.symm
      simp [listErase, listFind, this, ih]
    · simp only [listErase, if_neg hk, listFind]
      by_cases hk' : k₀ = k'
      · simp [hk']
      · simp [hk', ih]

theorem listFind_listSet_self {κ ν : Type} [DecidableEq κ] (k : κ) (v : ν)
    (l : List (κ × ν)) : listFind k (listSet k v l) = some v := by
  simp [listSet, listFind]

theorem listFind_listSet_ne {κ ν : Type} [DecidableEq κ] {k k' : κ} (v : ν)
    (l : List (κ × ν)) (h : k' ≠ k) :
    listFind k' (listSet k v l) = listFind k' l := by
  have : k ≠ k' := fun hc => h hc.symm
  simp [listSet, listFind, this, listFind_listErase_ne l h]

/-- The mutable per-worker state of `WorkerBase` that the verified
operations touch.  `producer_stage_ids` / `consumer_stage_ids` are
`none` before `_get_producer_consumer` has populated them (Python
`None`).  `producer_consumer_ready` mirrors
`_producer_consumer_initialized`; `middleware` mirrors the result of
`use_middleware()` (the module partition carries a `_DAG`);
`is_input` mirrors `_is_input`. -/
structure WorkerState (α : Type) where
  pp_rank : Nat
  actual_stage_num : Nat
  num_microbatches : Nat
  checkpoint : Bool
  outstanding : Int
  forward_times : Nat
  backward_times : Nat
  outstanding_range : Nat × Nat
  work_list : List (UniqueKey × WorkItem α)
  output_list : List (UniqueKey × WorkItem α)
  microbatch_id_to_backward_cache : List (Nat × BackwardCache α)
  microbatch_id_to_labels : List (Nat × α)
  producer_stage_ids : Option (List Nat)
  consumer_stage_ids : Option (List Nat)
  producer_consumer_ready : Bool
  middleware : Bool
  is_input : Bool
deriving DecidableEq, Repr

/-- Mirror of `WorkerBase.is_last_stage`. -/
def WorkerState.is_last_stage {α : Type} (st : WorkerState α) : Bool :=
  st.pp_rank == st.actual_stage_num - 1

/-- Mirror of `WorkerBase.is_first_stage`. -/
def WorkerState.is_first_stage {α : Type} (st : WorkerState α) : Bool :=
  st.pp_rank == 0

/-  ===============================================================
    PipelineEngineBase.forward_backward: microbatch slicing (claim C2)
    =============================================================== -/

/-- Mirror of `microbatch_size = math.ceil(batch_length / num_microbatches)`
(exact ceiling division on integers). -/
def microbatch_size (batch_length num_microbatches : Nat) : Nat :=
  (batch_length + num_microbatches - 1) / num_microbatches

/-- Mirror of `batch_start = microbatch_size * microbatch_id`. -/
def batch_start (batch_length num_microbatches microbatch_id : Nat) : Nat :=
  microbatch_size batch_length num_microbatches * microbatch_id

/-- Mirror of `batch_end = min(batch_start + microbatch_size, batch_length)`. -/
def batch_end (batch_length num_microbatches microbatch_id : Nat) : Nat :=
  min (batch_start batch_length num_microbatches microbatch_id
        + microbatch_size batch_length num_microbatches) batch_length

/-- Lengths of the slices handed to `split_batch`, in loop order. -/
def slice_lengths (batch_length num_microbatches : Nat) : List Nat :=
  (List.range num_microbatches).map
    (fun i => batch_end batch_length num_microbatches i
              - batch_start batch_length num_microbatches i)

theorem microbatch_size_pos {L n : Nat} (hn : 0 < n) (hL : n ≤ L) :
    0 < microbatch_size L n := by
  have h1 : n ≤ L + n - 1 := by omega
  exact Nat.div_pos h1 hn

theorem le_microbatch_size_mul {L n : Nat} (hn : 0 < n) :
    L ≤ microbatch_size L n * n := by
  unfold microbatch_size
  have hdm := Nat.div_add_mod (L + n - 1) n
  have hlt : (L + n - 1) % n < n := Nat.mod_lt _ hn
  have : n * ((L + n - 1) / n) = (L + n - 1) - (L + n - 1) % n := by omega
  have hcomm : (L + n - 1) / n * n = n * ((L + n - 1) / n) := Nat.mul_comm _ _
  omega

theorem slice_lengths_sum_aux (L n : Nat) :
    ∀ N : Nat, (( List.range N).map
        (fun i => batch_end L n i - batch_start L n i)).sum
      = min (microbatch_size L n * N) L := by
  intro N
  induction N with
  | zero => simp
  | succ k ih =>
    rw [List.range_succ, List.map_append, List.sum_append]
    simp only [List.map_cons, List.map_nil, List.sum_cons, List.sum_nil]
    rw [ih]
    unfold batch_end batch_start
    have hmul : microbatch_size L n * (k + 1) = microbatch_size L n * k
        + microbatch_size L n := by ring
    rw [hmul]
    have hk : microbatch_size L n * k ≤ microbatch_size L n * k
        + microbatch_size L n := by omega
    omega

/-- Claim C2: for every batch with batch_length ≥ num_microbatches (and a
positive microbatch count, required for the ceiling division to be
defined), forward_backward computes microbatch_size as the ceiling of
batch_length / num_microbatches and slices the batch into
num_microbatches pieces [microbatch_size*i, min(microbatch_size*(i+1),
batch_length)) that are contiguous and non-overlapping and whose lengths
sum to batch_length: (1) the slice lengths sum to batch_length, (2) the
slices are pairwise ordered-disjoint, and (3) every position of the batch
is covered by some slice. -/
theorem C2_microbatch_slicing (L n : Nat) (hn : 0 < n) (hL : n ≤ L) :
    (slice_lengths L n).sum = L
    ∧ (∀ i j, i < j → batch_end L n i ≤ batch_start L n j)
    ∧ (∀ x, x < L → ∃ i, i < n ∧ batch_start L n i ≤ x ∧ x < batch_end L n i) := by
  refine ⟨?_, ?_, ?_⟩
  · rw [slice_lengths, slice_lengths_sum_aux L n n]
    have := le_microbatch_size_mul (L := L) (n := n) hn
    omega
  · intro i j hij
    unfold batch_end batch_start
    have h1 : microbatch_size L n * i + microbatch_size L n
        = microbatch_size L n * (i + 1) := by ring
    have h2 : microbatch_size L n * (i + 1) ≤ microbatch_size L n * j :=
      Nat.mul_le_mul_left _ hij
    omega
  · intro x hx
    have hs : 0 < microbatch_size L n := microbatch_size_pos hn hL
    refine ⟨x / microbatch_size L n, ?_, ?_, ?_⟩
    · have hLs := le_microbatch_size_mul (L := L) (n := n) hn
      have hxn : x < n * microbatch_size L n := by
        have : microbatch_size L n * n = n * microbatch_size L n := Nat.mul_comm _ _
        omega
      exact (Nat.div_lt_iff_lt_mul hs).mpr hxn
    · unfold batch_start
      have := Nat.div_mul_le_self x (microbatch_size L n)
      have hcomm : x / microbatch_size L n * microbatch_size L n
          = microbatch_size L n * (x / microbatch_size L n) := Nat.mul_comm _ _
      omega
    · unfold batch_end batch_start
      have hdm := Nat.div_add_mod x (microbatch_size L n)
      have hmod : x % microbatch_size L n < microbatch_size L n :=
        Nat.mod_lt _ hs
      omega

/-- Concrete instantiation of C2 at batch_length = 5 and
num_microbatches = 4 (ceiling size 2, slice lengths [2, 2, 1, 0]). -/
theorem C2_microbatch_slicing_witness :
    (slice_lengths 5 4).sum = 5
    ∧ (∀ i j, i < j → batch_end 5 4 i ≤ batch_start 5 4 j)
    ∧ (∀ x, x < 5 → ∃ i, i < 4 ∧ batch_start 5 4 i ≤ x ∧ x < batch_end 5 4 i) :=
  C2_microbatch_slicing 5 4 (by decide) (by decide)

/-  ===============================================================
    WorkerBase operations
    =============================================================== -/

/-- Mirror of `WorkerBase.get_output_by_key`.  The two blocking waits of
the source (wait until the key is in the output map; wait on the item's
future) are modelled by returning `none` when the key is absent or the
future unresolved; the call also needs the consumer list to have been
resolved (`len(self.consumer_stage_ids)`).  Note that in the source the
line `output_work_item.refcount += 1` is commented out, so the refcount
is read but never changed, and the entry is popped exactly when the
stored refcount already reaches the consumer count. -/
def get_output_by_key {α : Type} (st : WorkerState α) (key : UniqueKey) :
    Option (α × WorkerState α) :=
  match listFind key st.output_list, st.consumer_stage_ids with
  | some item, some consumers =>
    match item.output with
    | none => none
    | some v =>
      if consumers.length ≤ item.refcount then
        some (v, { st with output_list := listErase key st.output_list })
      else
        some (v, st)
  | _, _ => none

/-- Mirror of `WorkerBase._initialize_outstanding_range`. -/
def init_outstanding_range (pp_rank actual_stage_num : Nat) : Nat × Nat :=
  if pp_rank = actual_stage_num - 1 then (0, 1)
  else (actual_stage_num, actual_stage_num)

/-- Mirror of `WorkerBase._reset_context`. -/
def reset_context {α : Type} (st : WorkerState α) : WorkerState α :=
  { st with forward_times := 0, backward_times := 0, outstanding := 0,
            outstanding_range := init_outstanding_range st.pp_rank st.actual_stage_num }

/-- Mirror of `WorkerBase._is_last_step`. -/
def is_last_step {α : Type} (st : WorkerState α) (work_item : WorkItem α) : Bool :=
  let last_phase := if work_item.forward_only then Phase.FORWARD else Phase.BACKWARD
  decide (work_item.phase = last_phase)
    && decide (work_item.microbatch_id = st.num_microbatches - 1)

/-- Tail of one `_work_loop` iteration: after the work item has been
consumed and its output future resolved, reset the per-batch context if
this was the batch's last step for this stage. -/
def work_loop_epilogue {α : Type} (st : WorkerState α) (work_item : WorkItem α) :
    WorkerState α :=
  if is_last_step st work_item then reset_context st else st

/-- Mirror of `WorkerBase._begin_backward` (last stage only): enqueue the
BACKWARD work item for the microbatch into the pending-work map
(`grad_wrt_loss = None` is modelled as an empty argument list, the fresh
future as an unresolved output). -/
def begin_backward {α : Type} (st : WorkerState α) (microbatch_id : Nat) :
    WorkerState α :=
  let key : UniqueKey := ⟨microbatch_id, Phase.BACKWARD⟩
  let work_item : WorkItem α :=
    { stage_id := st.pp_rank, phase := Phase.BACKWARD, args := [], output := none,
      microbatch_id := microbatch_id, num_microbatches := st.num_microbatches,
      forward_only := false, refcount := 0 }
  { st with work_list := listSet key work_item st.work_list }

/-- The `if is_last_stage and self.criterion:` reduction shared by the
forward branches: on the last stage with a criterion configured, block
until labels for the microbatch have been supplied (modelled by `none`),
pop them and reduce with the criterion (which abstracts the loss /
metric packaging).  Returns the result together with the updated label
map. -/
def apply_criterion {α : Type} (criterion : Option (α → α → α))
    (is_last : Bool) (labels : List (Nat × α)) (microbatch_id : Nat)
    (raw : α) : Option (α × List (Nat × α)) :=
  match criterion with
  | some c =>
    if is_last then
      match listFind microbatch_id labels with
      | none => none
      | some lab => some (c raw lab, listErase microbatch_id labels)
    else some (raw, labels)
  | none => some (raw, labels)

/-- Mirror of the `Phase.FORWARD` branch of
`WorkerBase._consume_work_item_by_phase`.  `mod` abstracts the module
partition applied to the resolved positional arguments (the
`_get_real_args_kwargs` future-waiting and flattening is abstracted into
`work_item.args`); the fire-and-forget `subscribe_producer` RPCs to the
consumer stages are external side effects and do not change local state.
As in the source, `is_last_stage` is computed once at the top.  Counter
updates, checkpointing, BackwardCache creation and the terminal-stage
automatic `begin_backward` are transcribed from the source. -/
def consume_forward {α : Type} (mod : List α → α)
    (criterion : Option (α → α → α)) (st : WorkerState α)
    (work_item : WorkItem α) : Option (α × WorkerState α) :=
  let m := work_item.microbatch_id
  let is_last := st.is_last_stage
  let st1 : WorkerState α :=
    { st with forward_times := st.forward_times + 1,
              outstanding := if work_item.forward_only then st.outstanding
                             else st.outstanding + 1 }
  let raw : α := mod work_item.args
  if work_item.forward_only then
    -- torch.no_grad() execution; no cache, no backward trigger
    match apply_criterion criterion is_last st1.microbatch_id_to_labels m raw with
    | none => none
    | some (res, labels') =>
      some (res, { st1 with microbatch_id_to_labels := labels' })
  else if st1.checkpoint && !is_last then
    -- checkpoint mode: cache inputs and (non-differentiable) outputs
    let bc : BackwardCache α :=
      { checkpoint := true, stage_input_args := work_item.args, stage_outputs := raw }
    let cache' := listSet m bc st1.microbatch_id_to_backward_cache
    some (raw, { st1 with microbatch_id_to_backward_cache := cache' })
  else
    match apply_criterion criterion is_last st1.microbatch_id_to_labels m raw with
    | none => none
    | some (res, labels') =>
      let bc : BackwardCache α :=
        { checkpoint := false, stage_input_args := work_item.args, stage_outputs := res }
      let cache' := listSet m bc st1.microbatch_id_to_backward_cache
      let lab' := labels'
      let st3 :=
        { st1 with microbatch_id_to_labels := lab', microbatch_id_to_backward_cache := cache' }
      some (res, if is_last then begin_backward st3 m else st3)

/-- Mirror of the `Phase.BACKWARD` branch of
`WorkerBase._consume_work_item_by_phase`.  `mod` is the partition (used
for checkpoint recompute), `bwd` abstracts `autograd.backward` plus the
collection of input gradients.  The `subscribe_consumer` RPCs to the
producer stages are external side effects.  The source asserts that the
microbatch has a BackwardCache entry and pops it; a missing entry is a
fatal assertion, modelled as an error. -/
def consume_backward {α : Type} (mod : List α → α)
    (bwd : α → List α → List α) (st : WorkerState α)
    (work_item : WorkItem α) : Except String (List α × WorkerState α) :=
  let m := work_item.microbatch_id
  let st1 : WorkerState α :=
    { st with backward_times := st.backward_times + 1,
              outstanding := st.outstanding - 1 }
  match listFind m st1.microbatch_id_to_backward_cache with
  | none => .error ("microbatch_id " ++ toString m ++ " not in backward cache")
  | some backward_cache =>
    let cache' := listErase m st1.microbatch_id_to_backward_cache
    let st2 := { st1 with microbatch_id_to_backward_cache := cache' }
    let stage_outputs :=
      if backward_cache.checkpoint then mod backward_cache.stage_input_args
      else backward_cache.stage_outputs
    .ok (bwd stage_outputs backward_cache.stage_input_args, st2)

/-- Result of a `subscribe_producer` call: the call can complete with a
new state, block on a condition variable, or raise. -/
inductive SubscribeResult (α : Type) where
  | blocked
  | err (msg : String)
  | ok (st : WorkerState α)
deriving DecidableEq, Repr

/-- Mirror of `WorkerBase.subscribe_producer`.  `fetch` abstracts the
eventual value of the asynchronous remote `get_output_by_key(key)` call
on a producer rank.  In the linear (non-middleware) path the producer
list is read without any topology-readiness wait: `len(None)` raises a
TypeError when topology is unresolved.  In the middleware (DAG) path the
call first no-ops if the FORWARD work item already exists, then blocks
until `_producer_consumer_initialized`; with the model input needed, an
extra INPUT-phase fetch from rank 0 is prepended.  Both paths finally
insert the work item only if the key is still absent. -/
def subscribe_producer {α : Type} (fetch : Nat → UniqueKey → α)
    (st : WorkerState α) (microbatch_id : Nat) (forward_only : Bool) :
    SubscribeResult α :=
  let key : UniqueKey := ⟨microbatch_id, Phase.FORWARD⟩
  if !st.middleware then
    match st.producer_stage_ids with
    | none => .err "TypeError: object of type NoneType has no len()"
    | some producers =>
      let futures := producers.map (fun r => fetch r ⟨microbatch_id, Phase.FORWARD⟩)
      let work_item : WorkItem α :=
        { stage_id := st.pp_rank, phase := Phase.FORWARD, args := futures,
          output := none, microbatch_id := microbatch_id,
          num_microbatches := st.num_microbatches, forward_only := forward_only,
          refcount := 0 }
      if (listFind key st.work_list).isSome then .ok st
      else .ok { st with work_list := listSet key work_item st.work_list }
  else
    if (listFind key st.work_list).isSome then .ok st
    else if !st.producer_consumer_ready then .blocked
    else
      let producers := st.producer_stage_ids.getD []
      let need_model_input := !st.is_first_stage && st.is_input
      let futures :=
        if need_model_input then
          fetch 0 ⟨microbatch_id, Phase.INPUT⟩
            :: producers.map (fun r => fetch r ⟨microbatch_id, Phase.FORWARD⟩)
        else producers.map (fun r => fetch r ⟨microbatch_id, Phase.FORWARD⟩)
      let work_item : WorkItem α :=
        { stage_id := st.pp_rank, phase := Phase.FORWARD, args := futures,
          output := none, microbatch_id := microbatch_id,
          num_microbatches := st.num_microbatches, forward_only := forward_only,
          refcount := 0 }
      if (listFind key st.work_list).isSome then .ok st
      else .ok { st with work_list := listSet key work_item st.work_list }

/-- Mirror of `WorkerBase.subscribe_consumer`.  Asserts that the
producer list has been populated and that the stage has consumers,
issues one BACKWARD-keyed fetch per consumer, and asserts that no
BACKWARD work item for the microbatch exists yet before inserting. -/
def subscribe_consumer {α : Type} (fetch : Nat → UniqueKey → α)
    (st : WorkerState α) (microbatch_id : Nat) :
    Except String (WorkerState α) :=
  match st.producer_stage_ids with
  | none => .error "assert self.producer_stage_ids is not None"
  | some _ =>
    match st.consumer_stage_ids with
    | none => .error "TypeError: object of type NoneType has no len()"
    | some consumers =>
      if consumers.length = 0 then
        .error "only stage that has consumers can subscribe comsumers"
      else
        let futures := consumers.map (fun r => fetch r ⟨microbatch_id, Phase.BACKWARD⟩)
        let work_item : WorkItem α :=
          { stage_id := st.pp_rank, phase := Phase.BACKWARD, args := futures,
            output := none, microbatch_id := microbatch_id,
            num_microbatches := st.num_microbatches, forward_only := false,
            refcount := 0 }
        let key : UniqueKey := ⟨microbatch_id, Phase.BACKWARD⟩
        if (listFind key st.work_list).isSome then
          .error "assert key not in self.work_list"
        else
          .ok { st with work_list := listSet key work_item st.work_list }

/-  ===============================================================
    PipelineEngineBase: injection-window constraint and loop order
    =============================================================== -/

/-- The synchronization performed by `PipelineEngineBase._consume_constraint`
before a microbatch is injected: nothing, a `wait()` on recorded
forward-output futures (entries are (output pp_rank, microbatch index
into ret_future)), or a synchronous `get_output_by_key` fetch of a
BACKWARD output at the given ranks. -/
inductive ConstraintAction where
  | noWait
  | waitForwardFuture (entries : List (Nat × Nat))
  | fetchBackward (key : UniqueKey) (ranks : List Nat)
deriving DecidableEq, Repr

/-- Mirror of `PipelineEngineBase._consume_constraint`. -/
def consume_constraint (actual_stage_num : Nat) (use_1F1B : Bool)
    (microbatch_id : Nat) (forward_only : Bool)
    (input_pp_ranks output_pp_ranks : List Nat) : ConstraintAction :=
  if actual_stage_num ≤ microbatch_id then
    if forward_only || !use_1F1B then
      .waitForwardFuture
        (output_pp_ranks.map (fun r => (r, microbatch_id - actual_stage_num)))
    else
      .fetchBackward ⟨microbatch_id - actual_stage_num, Phase.BACKWARD⟩
        input_pp_ranks
  else .noWait

/-- The externally visible operations issued by the orchestrator loop in
`forward_backward`, in program order. -/
inductive EngineEvent where
  | constraint (a : ConstraintAction)
  | setInput (ranks : List Nat) (microbatch_id : Nat) (forward_only : Bool)
  | setLabels (ranks : List Nat) (microbatch_id : Nat)
  | subscribeForward (ranks : List Nat) (microbatch_id : Nat)
deriving DecidableEq, Repr

/-- One iteration of the `for microbatch_id in range(num_microbatches)`
loop of `forward_backward`: enforce the window constraint, inject the
input slice, set labels (when labels were passed), subscribe to the exit
stages' forward output. -/
def microbatch_events (actual_stage_num : Nat) (use_1F1B : Bool)
    (has_labels forward_only : Bool) (input_pp_ranks output_pp_ranks : List Nat)
    (microbatch_id : Nat) : List EngineEvent :=
  [.constraint (consume_constraint actual_stage_num use_1F1B microbatch_id
      forward_only input_pp_ranks output_pp_ranks),
   .setInput input_pp_ranks microbatch_id forward_only]
  ++ (if has_labels then [.setLabels output_pp_ranks microbatch_id] else [])
  ++ [.subscribeForward output_pp_ranks microbatch_id]

/-- Sequential execution of a loop body over `range N`, emitting the
events of iteration 0, then 1, ... then N-1. -/
def emitRange (g : Nat → List EngineEvent) : Nat → List EngineEvent
  | 0 => []
  | n + 1 => emitRange g n ++ g n

/-- The event trace of the microbatch loop of
`PipelineEngineBase.forward_backward`. -/
def forward_backward_events (actual_stage_num : Nat) (use_1F1B : Bool)
    (has_labels forward_only : Bool) (input_pp_ranks output_pp_ranks : List Nat)
    (num_microbatches : Nat) : List EngineEvent :=
  emitRange
    (microbatch_events actual_stage_num use_1F1B has_labels forward_only
      input_pp_ranks output_pp_ranks)
    num_microbatches

theorem emitRange_block_infix (g : Nat → List EngineEvent) :
    ∀ N m : Nat, m < N →
      ∃ pre post, emitRange g N = pre ++ g m ++ post := by
  intro N
  induction N with
  | zero => intro m hm; omega
  | succ k ih =>
    intro m hm
    by_cases hmk : m < k
    · obtain ⟨pre, post, hsplit⟩ := ih m hmk
      exact ⟨pre, post ++ g k, by rw [emitRange, hsplit]; simp⟩
    · have : m = k := by omega
      subst this
      exact ⟨emitRange g m, [], by rw [emitRange]; simp⟩

theorem emitRange_take_block (g : Nat → List EngineEvent) :
    ∀ N b : Nat, b < N →
      ∃ post, emitRange g N = emitRange g b ++ g b ++ post := by
  intro N
  induction N with
  | zero => intro b hb; omega
  | succ k ih =>
    intro b hb
    by_cases hbk : b < k
    · obtain ⟨post, hsplit⟩ := ih b hbk
      exact ⟨post ++ g k, by rw [emitRange, hsplit]; simp⟩
    · have : b = k := by omega
      subst this
      exact ⟨[], by rw [emitRange]; simp⟩

theorem emitRange_two_blocks (g : Nat → List EngineEvent) (N a b : Nat)
    (hab : a < b) (hb : b < N) :
    ∃ p q r, emitRange g N = p ++ g a ++ q ++ g b ++ r := by
  obtain ⟨post, hsplit⟩ := emitRange_take_block g N b hb
  obtain ⟨pre, mid, hsplit2⟩ := emitRange_block_infix g b a hab
  refine ⟨pre, mid, post, ?_⟩
  rw [hsplit, hsplit2]

/-  ===============================================================
    Claim theorems
    =============================================================== -/

theorem consume_backward_found {α : Type} (mod : List α → α)
    (bwd : α → List α → List α) (st : WorkerState α) (wi : WorkItem α)
    (bc : BackwardCache α)
    (h : listFind wi.microbatch_id st.microbatch_id_to_backward_cache = some bc) :
    consume_backward mod bwd st wi
      = .ok (bwd (if bc.checkpoint then mod bc.stage_input_args else bc.stage_outputs)
               bc.stage_input_args,
             { st with backward_times := st.backward_times + 1,
                       outstanding := st.outstanding - 1,
                       microbatch_id_to_backward_cache :=
                         listErase wi.microbatch_id st.microbatch_id_to_backward_cache }) := by
  unfold consume_backward
  simp [h]

/-- Claim C4: for every stage and every microbatch m, executing the
BACKWARD phase for m pops m's BackwardCache entry exactly once (the
entry is removed from the cache map, so a second BACKWARD execution for
m fails), other entries are untouched, and if no cache entry for m
exists the worker fails with a fatal assertion (modelled as an error)
instead of proceeding. -/
theorem C4_backward_cache_pop_once {α : Type} (mod : List α → α)
    (bwd : α → List α → List α) (st : WorkerState α) (wi : WorkItem α) :
    (listFind wi.microbatch_id st.microbatch_id_to_backward_cache = none →
        ∃ msg, consume_backward mod bwd st wi = .error msg)
    ∧ (∀ bc, listFind wi.microbatch_id st.microbatch_id_to_backward_cache = some bc →
        ∃ grads st',
          consume_backward mod bwd st wi = .ok (grads, st')
          ∧ listFind wi.microbatch_id st'.microbatch_id_to_backward_cache = none
          ∧ (∀ wi' : WorkItem α, wi'.microbatch_id = wi.microbatch_id →
              ∃ msg, consume_backward mod bwd st' wi' = .error msg)
          ∧ (∀ m', m' ≠ wi.microbatch_id →
              listFind m' st'.microbatch_id_to_backward_cache
                = listFind m' st.microbatch_id_to_backward_cache)) := by
  constructor
  · intro h
    refine ⟨"microbatch_id " ++ toString wi.microbatch_id ++ " not in backward cache", ?_⟩
    unfold consume_backward
    simp [h]
  · intro bc h
    refine ⟨_, _, consume_backward_found mod bwd st wi bc h, ?_, ?_, ?_⟩
    · simp [listFind_listErase_self]
    · intro wi' hmb
      refine ⟨"microbatch_id " ++ toString wi'.microbatch_id ++ " not in backward cache", ?_⟩
      unfold consume_backward
      rw [hmb]
      simp [listFind_listErase_self]
    · intro m' hm'
      simp [listFind_listErase_ne _ hm']

def c4_mod : List Nat → Nat := fun args => args.sum

def c4_bwd : Nat → List Nat → List Nat := fun _ args => args

def c4_bc : BackwardCache Nat :=
  { checkpoint := false, stage_input_args := [5], stage_outputs := 7 }

def baseState : WorkerState Nat :=
  { pp_rank := 0, actual_stage_num := 2, num_microbatches := 1, checkpoint := false,
    outstanding := 0, forward_times := 0, backward_times := 0, outstanding_range := (2, 2),
    work_list := [], output_list := [], microbatch_id_to_backward_cache := [],
    microbatch_id_to_labels := [], producer_stage_ids := some [],
    consumer_stage_ids := some [1], producer_consumer_ready := true,
    middleware := false, is_input := false }

def c4_state : WorkerState Nat :=
  { baseState with microbatch_id_to_backward_cache := [(0, c4_bc)] }

def c4_wi : WorkItem Nat :=
  { stage_id := 0, phase := Phase.BACKWARD, args := [], output := none,
    microbatch_id := 0, num_microbatches := 1, forward_only := false, refcount := 0 }

/-- Concrete instantiation of C4: a cached microbatch 0 is consumed,
removed, and cannot be consumed again. -/
theorem C4_backward_cache_pop_once_witness :
    ∃ grads st',
      consume_backward c4_mod c4_bwd c4_state c4_wi = .ok (grads, st')
      ∧ listFind c4_wi.microbatch_id st'.microbatch_id_to_backward_cache = none
      ∧ (∀ wi' : WorkItem Nat, wi'.microbatch_id = c4_wi.microbatch_id →
          ∃ msg, consume_backward c4_mod c4_bwd st' wi' = .error msg)
      ∧ (∀ m', m' ≠ c4_wi.microbatch_id →
          listFind m' st'.microbatch_id_to_backward_cache
            = listFind m' c4_state.microbatch_id_to_backward_cache) :=
  (C4_backward_cache_pop_once c4_mod c4_bwd c4_state c4_wi).2 c4_bc (by decide)

/-- Claim C8: the outstanding-window bound is exactly 1 for the terminal
stage (range (0, 1)) and the range for every other stage has the total
stage count as its bound (the source sets it to (stage_count,
stage_count)); the last step of a batch is the last microbatch with
phase BACKWARD in training or FORWARD in inference, and after it the
outstanding counter, the forward/backward counters and the outstanding
range are reset; before it nothing is reset. -/
theorem C8_outstanding_range_reset {α : Type} (st : WorkerState α) (wi : WorkItem α) :
    (st.pp_rank = st.actual_stage_num - 1 →
        init_outstanding_range st.pp_rank st.actual_stage_num = (0, 1))
    ∧ (st.pp_rank ≠ st.actual_stage_num - 1 →
        init_outstanding_range st.pp_rank st.actual_stage_num
          = (st.actual_stage_num, st.actual_stage_num))
    ∧ (is_last_step st wi = true ↔
        (wi.phase = (if wi.forward_only then Phase.FORWARD else Phase.BACKWARD)
          ∧ wi.microbatch_id = st.num_microbatches - 1))
    ∧ (is_last_step st wi = true →
        (work_loop_epilogue st wi).outstanding = 0
          ∧ (work_loop_epilogue st wi).forward_times = 0
          ∧ (work_loop_epilogue st wi).backward_times = 0
          ∧ (work_loop_epilogue st wi).outstanding_range
              = init_outstanding_range st.pp_rank st.actual_stage_num)
    ∧ (is_last_step st wi = false → work_loop_epilogue st wi = st) := by
  refine ⟨?_, ?_, ?_, ?_, ?_⟩
  · intro h; simp [init_outstanding_range, h]
  · intro h; simp [init_outstanding_range, h]
  · simp [is_last_step]
  · intro h; simp [work_loop_epilogue, h, reset_context]
  · intro h; simp [work_loop_epilogue, h]

def c8_state : WorkerState Nat := { baseState with pp_rank := 1 }

def c8_wi : WorkItem Nat :=
  { stage_id := 1, phase := Phase.BACKWARD, args := [], output := none,
    microbatch_id := 0, num_microbatches := 1, forward_only := false, refcount := 0 }

/-- Concrete instantiation of C8 on the terminal stage of a 2-stage
pipeline with one microbatch. -/
theorem C8_outstanding_range_reset_witness :
    (c8_state.pp_rank = c8_state.actual_stage_num - 1 →
        init_outstanding_range c8_state.pp_rank c8_state.actual_stage_num = (0, 1))
    ∧ (c8_state.pp_rank ≠ c8_state.actual_stage_num - 1 →
        init_outstanding_range c8_state.pp_rank c8_state.actual_stage_num
          = (c8_state.actual_stage_num, c8_state.actual_stage_num))
    ∧ (is_last_step c8_state c8_wi = true ↔
        (c8_wi.phase = (if c8_wi.forward_only then Phase.FORWARD else Phase.BACKWARD)
          ∧ c8_wi.microbatch_id = c8_state.num_microbatches - 1))
    ∧ (is_last_step c8_state c8_wi = true →
        (work_loop_epilogue c8_state c8_wi).outstanding = 0
          ∧ (work_loop_epilogue c8_state c8_wi).forward_times = 0
          ∧ (work_loop_epilogue c8_state c8_wi).backward_times = 0
          ∧ (work_loop_epilogue c8_state c8_wi).outstanding_range
              = init_outstanding_range c8_state.pp_rank c8_state.actual_stage_num)
    ∧ (is_last_step c8_state c8_wi = false → work_loop_epilogue c8_state c8_wi = c8_state) :=
  C8_outstanding_range_reset c8_state c8_wi

/-- Claim C9: if a FORWARD WorkItem for a microbatch already exists in
the stage's pending-work map, subscribe_producer returns with the whole
worker state unchanged (in particular the pending-work map): the first
caller wins and repeated calls are no-ops on the map. -/
theorem C9_subscribe_producer_idempotent {α : Type} (fetch : Nat → UniqueKey → α)
    (st : WorkerState α) (m : Nat) (fo : Bool)
    (hkey : (listFind ⟨m, Phase.FORWARD⟩ st.work_list).isSome = true)
    (hres : st.middleware = false → st.producer_stage_ids.isSome = true) :
    subscribe_producer fetch st m fo = .ok st := by
  cases hm : st.middleware
  · obtain ⟨ps, hps⟩ := Option.isSome_iff_exists.mp (hres hm)
    simp [subscribe_producer, hm, hps, hkey]
  · simp [subscribe_producer, hm, hkey]

def c9_fetch : Nat → UniqueKey → Nat := fun _ _ => 0

def c9_item : WorkItem Nat :=
  { stage_id := 0, phase := Phase.FORWARD, args := [3], output := none,
    microbatch_id := 0, num_microbatches := 1, forward_only := false, refcount := 0 }

def c9_state : WorkerState Nat :=
  { baseState with work_list := [(⟨0, Phase.FORWARD⟩, c9_item)] }

/-- Concrete instantiation of C9: a second subscribe_producer call for a
microbatch whose FORWARD item is already pending leaves the state
untouched. -/
theorem C9_subscribe_producer_idempotent_witness :
    subscribe_producer c9_fetch c9_state 0 false = .ok c9_state :=
  C9_subscribe_producer_idempotent c9_fetch c9_state 0 false (by decide)
    (fun _ => by decide)

/-- Claim C10: a subscribe_consumer call for a microbatch whose BACKWARD
WorkItem is still in the pending-work map fails with the fatal
`assert key not in self.work_list` assertion rather than being an
idempotent no-op. -/
theorem C10_subscribe_consumer_duplicate_fatal {α : Type}
    (fetch : Nat → UniqueKey → α) (st : WorkerState α) (m : Nat)
    (ps cs : List Nat)
    (hp : st.producer_stage_ids = some ps)
    (hc : st.consumer_stage_ids = some cs)
    (hne : cs ≠ [])
    (hdup : (listFind ⟨m, Phase.BACKWARD⟩ st.work_list).isSome = true) :
    subscribe_consumer fetch st m = .error "assert key not in self.work_list" := by
  unfold subscribe_consumer
  rw [hp, hc]
  have hlen : ¬ cs.length = 0 := by
    intro h0
    exact hne (List.length_eq_zero.mp h0)
  simp [hlen, hdup]

def c10_item : WorkItem Nat :=
  { stage_id := 0, phase := Phase.BACKWARD, args := [2], output := none,
    microbatch_id := 0, num_microbatches := 1, forward_only := false, refcount := 0 }

def c10_state : WorkerState Nat :=
  { baseState with work_list := [(⟨0, Phase.BACKWARD⟩, c10_item)] }

/-- Concrete instantiation of C10: the duplicate backward subscription
aborts with the assertion. -/
theorem C10_subscribe_consumer_duplicate_fatal_witness :
    subscribe_consumer c9_fetch c10_state 0 = .error "assert key not in self.work_list" :=
  C10_subscribe_consumer_duplicate_fatal c9_fetch c10_state 0 [] [1]
    (by decide) (by decide) (by decide) (by decide)

theorem apply_criterion_fst {α : Type} (criterion : Option (α → α → α))
    (is_last : Bool) (l₁ l₂ : List (Nat × α)) (m : Nat) (raw : α)
    (hlab : listFind m l₁ = listFind m l₂) :
    (apply_criterion criterion is_last l₁ m raw).map Prod.fst
      = (apply_criterion criterion is_last l₂ m raw).map Prod.fst := by
  unfold apply_criterion
  cases criterion with
  | none => simp
  | some c =>
    cases is_last with
    | false => simp
    | true =>
      rw [hlab]
      cases listFind m l₂ <;> simp

/-- Claim C6: a forward executed with forward_only = true creates no
BackwardCache entry, does not change the outstanding-window counter and
enqueues no work item; consequently the output of an inference-mode
forward depends only on the module, the criterion, the arguments and
the labels for the microbatch — two runs from states that agree on
stage identity and on the labels for the microbatch (as two identical
forward_backward calls produce) yield identical outputs. -/
theorem C6_forward_only_no_side_effects {α : Type} (mod : List α → α)
    (criterion : Option (α → α → α)) (s₁ s₂ : WorkerState α) (wi : WorkItem α)
    (hfo : wi.forward_only = true)
    (hrank : s₁.pp_rank = s₂.pp_rank)
    (hstage : s₁.actual_stage_num = s₂.actual_stage_num)
    (hlab : listFind wi.microbatch_id s₁.microbatch_id_to_labels
             = listFind wi.microbatch_id s₂.microbatch_id_to_labels) :
    (∀ r st', consume_forward mod criterion s₁ wi = some (r, st') →
        st'.microbatch_id_to_backward_cache = s₁.microbatch_id_to_backward_cache
        ∧ st'.outstanding = s₁.outstanding
        ∧ st'.work_list = s₁.work_list)
    ∧ (consume_forward mod criterion s₁ wi).map Prod.fst
        = (consume_forward mod criterion s₂ wi).map Prod.fst := by
  constructor
  · intro r st' hrun
    unfold consume_forward at hrun
    rw [hfo] at hrun
    simp at hrun
    cases hac : apply_criterion criterion s₁.is_last_stage
        s₁.microbatch_id_to_labels wi.microbatch_id (mod wi.args) with
    | none => rw [hac] at hrun; simp at hrun
    | some p =>
      obtain ⟨res, labels'⟩ := p
      rw [hac] at hrun
      injection hrun with hpair
      injection hpair with hr hst
      subst hst
      exact ⟨rfl, rfl, rfl⟩
  · unfold consume_forward
    rw [hfo]
    have hls : s₁.is_last_stage = s₂.is_last_stage := by
      simp [WorkerState.is_last_stage, hrank, hstage]
    rw [hls]
    simp
    have hfst := apply_criterion_fst criterion s₂.is_last_stage
      s₁.microbatch_id_to_labels s₂.microbatch_id_to_labels
      wi.microbatch_id (mod wi.args) hlab
    cases h₁ : apply_criterion criterion s₂.is_last_stage
        s₁.microbatch_id_to_labels wi.microbatch_id (mod wi.args) with
    | none =>
      rw [h₁] at hfst
      cases h₂ : apply_criterion criterion s₂.is_last_stage
          s₂.microbatch_id_to_labels wi.microbatch_id (mod wi.args) with
      | none => simp
      | some q => rw [h₂] at hfst; simp at hfst
    | some p =>
      rw [h₁] at hfst
      cases h₂ : apply_criterion criterion s₂.is_last_stage
          s₂.microbatch_id_to_labels wi.microbatch_id (mod wi.args) with
      | none => rw [h₂] at hfst; simp at hfst
      | some q =>
        rw [h₂] at hfst
        obtain ⟨r₁, l₁⟩ := p
        obtain ⟨r₂, l₂⟩ := q
        simp at hfst ⊢
        exact hfst

def c6_mod : List Nat → Nat := fun args => args.sum

def c6_wi : WorkItem Nat :=
  { stage_id := 0, phase := Phase.FORWARD, args := [4, 6], output := none,
    microbatch_id := 0, num_microbatches := 1, forward_only := true, refcount := 0 }

def c6_s2 : WorkerState Nat :=
  { baseState with outstanding := 5, forward_times := 3 }

/-- Concrete instantiation of C6: two inference-mode runs from states
differing only in mutable counters give the same output, and the first
run leaves cache, outstanding counter and pending work unchanged. -/
theorem C6_forward_only_no_side_effects_witness :
    (∀ r st', consume_forward c6_mod none baseState c6_wi = some (r, st') →
        st'.microbatch_id_to_backward_cache = baseState.microbatch_id_to_backward_cache
        ∧ st'.outstanding = baseState.outstanding
        ∧ st'.work_list = baseState.work_list)
    ∧ (consume_forward c6_mod none baseState c6_wi).map Prod.fst
        = (consume_forward c6_mod none c6_s2 c6_wi).map Prod.fst :=
  C6_forward_only_no_side_effects c6_mod none baseState c6_s2 c6_wi rfl rfl rfl rfl

/-- Claim C7: on the terminal stage, a FORWARD executed with
forward_only = false enqueues exactly one BACKWARD WorkItem for the
microbatch into the stage's own pending-work map (the item created by
`_begin_backward`), leaving every other pending-work key unchanged —
no external trigger is involved. -/
theorem C7_terminal_auto_backward {α : Type} (mod : List α → α)
    (criterion : Option (α → α → α)) (st : WorkerState α) (wi : WorkItem α)
    (hlast : st.is_last_stage = true) (hfo : wi.forward_only = false)
    (r : α) (st' : WorkerState α)
    (hrun : consume_forward mod criterion st wi = some (r, st')) :
    listFind ⟨wi.microbatch_id, Phase.BACKWARD⟩ st'.work_list
      = some { stage_id := st.pp_rank, phase := Phase.BACKWARD, args := [],
               output := none, microbatch_id := wi.microbatch_id,
               num_microbatches := st.num_microbatches, forward_only := false,
               refcount := 0 }
    ∧ (∀ k, k ≠ (⟨wi.microbatch_id, Phase.BACKWARD⟩ : UniqueKey) →
        listFind k st'.work_list = listFind k st.work_list) := by
  unfold consume_forward at hrun
  rw [hfo, hlast] at hrun
  simp at hrun
  cases hac : apply_criterion criterion true
      st.microbatch_id_to_labels wi.microbatch_id (mod wi.args) with
  | none => rw [hac] at hrun; simp at hrun
  | some p =>
    obtain ⟨res, labels'⟩ := p
    rw [hac] at hrun
    injection hrun with hpair
    injection hpair with hr hst
    subst hst
    constructor
    · simp [begin_backward, listFind_listSet_self]
    · intro k hk
      simp [begin_backward, listFind_listSet_ne _ _ hk]

def c7_state : WorkerState Nat :=
  { baseState with pp_rank := 1, producer_stage_ids := some [0],
                   consumer_stage_ids := some [] }

def c7_wi : WorkItem Nat :=
  { stage_id := 1, phase := Phase.FORWARD, args := [5], output := none,
    microbatch_id := 0, num_microbatches := 1, forward_only := false, refcount := 0 }

def c7_after : WorkerState Nat :=
  { c7_state with forward_times := 1, outstanding := 1,
                  microbatch_id_to_backward_cache :=
                    [(0, { checkpoint := false, stage_input_args := [5], stage_outputs := 5 })],
                  work_list :=
                    [(⟨0, Phase.BACKWARD⟩,
                      { stage_id := 1, phase := Phase.BACKWARD, args := [], output := none,
                        microbatch_id := 0, num_microbatches := 1, forward_only := false,
                        refcount := 0 })] }

/-- Concrete instantiation of C7: the terminal stage of a 2-stage
pipeline enqueues the BACKWARD item for microbatch 0 by itself. -/
theorem C7_terminal_auto_backward_witness :
    listFind ⟨c7_wi.microbatch_id, Phase.BACKWARD⟩ c7_after.work_list
      = some { stage_id := c7_state.pp_rank, phase := Phase.BACKWARD, args := [],
               output := none, microbatch_id := c7_wi.microbatch_id,
               num_microbatches := c7_state.num_microbatches, forward_only := false,
               refcount := 0 }
    ∧ (∀ k, k ≠ (⟨c7_wi.microbatch_id, Phase.BACKWARD⟩ : UniqueKey) →
        listFind k c7_after.work_list = listFind k c7_state.work_list) :=
  C7_terminal_auto_backward c6_mod none c7_state c7_wi (by decide) (by decide)
    5 c7_after (by decide)

def c1_key : UniqueKey := ⟨0, Phase.FORWARD⟩

def c1_item : WorkItem Nat :=
  { stage_id := 0, phase := Phase.FORWARD, args := [], output := some 42,
    microbatch_id := 0, num_microbatches := 1, forward_only := false, refcount := 0 }

def c1_state : WorkerState Nat :=
  { baseState with output_list := [(c1_key, c1_item)] }

/-- Claim C1 counterexample: on a stage with exactly one consumer and an
entry with refcount 0, the claim predicts that a get_output_by_key call
increments the refcount to 1 = number of consumers and therefore evicts
the entry.  The code instead returns the value and leaves the state
completely unchanged — the `refcount += 1` statement is commented out in
the source — so the refcount stays 0 and the entry is never evicted. -/
theorem C1_counterexample :
    get_output_by_key c1_state c1_key = some (42, c1_state)
    ∧ (listFind c1_key c1_state.output_list).map WorkItem.refcount = some 0
    ∧ c1_state.consumer_stage_ids = some [1]
    ∧ get_output_by_key c1_state c1_key
        ≠ some (42, { c1_state with output_list := listErase c1_key c1_state.output_list }) := by
  refine ⟨by decide, by decide, by decide, ?_⟩
  decide

/-- Claim C1 as amended: get_output_by_key blocks until the key is
present and its future resolved and returns the materialized output;
the refcount is never incremented (the increment is commented out), so
with the initial refcount 0 the entry is evicted on the first call
exactly when the stage has zero consumers, and on a stage with at least
one consumer the call leaves the state unchanged — hence repeated calls
return the same value and the entry is never evicted. -/
theorem C1_amended_no_refcount_no_eviction {α : Type} (st : WorkerState α)
    (k : UniqueKey) (item : WorkItem α) (v : α) (consumers : List Nat)
    (hfind : listFind k st.output_list = some item)
    (hout : item.output = some v)
    (hcons : st.consumer_stage_ids = some consumers)
    (hrc : item.refcount = 0) :
    (consumers = [] →
        get_output_by_key st k
          = some (v, { st with output_list := listErase k st.output_list }))
    ∧ (consumers ≠ [] → get_output_by_key st k = some (v, st)) := by
  constructor
  · intro h
    subst h
    unfold get_output_by_key
    rw [hfind, hcons]
    simp [hout, hrc]
  · intro h
    unfold get_output_by_key
    rw [hfind, hcons]
    have hnle : ¬ (consumers.length ≤ item.refcount) := by
      intro hle
      rw [hrc, Nat.le_zero, List.length_eq_zero] at hle
      exact h hle
    simp [hout, hnle]

/-- Concrete instantiation of the amended C1 on a stage with one
consumer: the call returns the value and leaves the state unchanged. -/
theorem C1_amended_no_refcount_no_eviction_witness :
    (([1] : List Nat) = [] →
        get_output_by_key c1_state c1_key
          = some (42, { c1_state with output_list := listErase c1_key c1_state.output_list }))
    ∧ (([1] : List Nat) ≠ [] → get_output_by_key c1_state c1_key = some (42, c1_state)) :=
  C1_amended_no_refcount_no_eviction c1_state c1_key c1_item 42 [1]
    (by decide) (by decide) (by decide) (by decide)

def c5_fetch : Nat → UniqueKey → Nat := fun _ _ => 0

def c5_state : WorkerState Nat :=
  { baseState with pp_rank := 1, producer_stage_ids := none,
                   consumer_stage_ids := none, producer_consumer_ready := false }

/-- Claim C5 counterexample: in linear (non-middleware) mode a
subscribe_producer call that arrives before topology resolution (the
producer list is still None) does not block — it fails with a TypeError
from `len(self.producer_stage_ids)`, contradicting the claim that such
calls never fail because topology is not yet resolved. -/
theorem C5_counterexample :
    subscribe_producer c5_fetch c5_state 0 false
      = SubscribeResult.err "TypeError: object of type NoneType has no len()" := by
  decide

/-- Claim C5 as amended: only in DAG (middleware) mode does a
subscribe_producer call that arrives before topology resolution block
until the producer/consumer lists are populated (unless the work item
already exists, in which case it no-ops); once resolution has completed
the call proceeds normally.  In linear mode the call reads the producer
list without any wait and fails with a TypeError while the list is
still unresolved. -/
theorem C5_amended_topology_wait {α : Type} (fetch : Nat → UniqueKey → α)
    (st : WorkerState α) (m : Nat) (fo : Bool) :
    (st.middleware = true → st.producer_consumer_ready = false →
        listFind ⟨m, Phase.FORWARD⟩ st.work_list = none →
        subscribe_producer fetch st m fo = SubscribeResult.blocked)
    ∧ (st.middleware = true → st.producer_consumer_ready = true →
        ∃ st', subscribe_producer fetch st m fo = SubscribeResult.ok st')
    ∧ (st.middleware = false → st.producer_stage_ids = none →
        subscribe_producer fetch st m fo
          = SubscribeResult.err "TypeError: object of type NoneType has no len()") := by
  refine ⟨?_, ?_, ?_⟩
  · intro hm hr hk
    simp [subscribe_producer, hm, hr, hk]
  · intro hm hr
    cases hres : subscribe_producer fetch st m fo with
    | ok st' => exact ⟨st', rfl⟩
    | blocked =>
      unfold subscribe_producer at hres
      rw [hm, hr] at hres
      simp at hres
      split at hres <;> (try split at hres) <;> simp at hres
    | err msg =>
      unfold subscribe_producer at hres
      rw [hm, hr] at hres
      simp at hres
      split at hres <;> (try split at hres) <;> simp at hres
  · intro hm hp
    simp [subscribe_producer, hm, hp]

def c5_dag_state : WorkerState Nat := { c5_state with middleware := true }

/-- Concrete instantiation of the amended C5 in DAG mode before
resolution: the call blocks instead of failing. -/
theorem C5_amended_topology_wait_witness :
    (c5_dag_state.middleware = true → c5_dag_state.producer_consumer_ready = false →
        listFind ⟨0, Phase.FORWARD⟩ c5_dag_state.work_list = none →
        subscribe_producer c5_fetch c5_dag_state 0 false = SubscribeResult.blocked)
    ∧ (c5_dag_state.middleware = true → c5_dag_state.producer_consumer_ready = true →
        ∃ st', subscribe_producer c5_fetch c5_dag_state 0 false = SubscribeResult.ok st')
    ∧ (c5_dag_state.middleware = false → c5_dag_state.producer_stage_ids = none →
        subscribe_producer c5_fetch c5_dag_state 0 false
          = SubscribeResult.err "TypeError: object of type NoneType has no len()") :=
  C5_amended_topology_wait c5_fetch c5_dag_state 0 false

/-- Claim C3: for every microbatch id m with m ≥ stage count S, the
forward_backward loop runs the injection-window constraint strictly
before injecting microbatch m (the constraint event and the setInput
event for m appear in this order in the loop trace, after the whole
block of microbatch m − S, whose forward-output subscription they can
therefore observe); in forward-only or fill-drain mode the constraint
waits on microbatch (m − S)'s forward-output future at the output
ranks, and in 1F1B training mode it synchronously fetches microbatch
(m − S)'s BACKWARD output from the input ranks. -/
theorem C3_injection_window (S : Nat) (u has_labels f : Bool)
    (inR outR : List Nat) (N m : Nat)
    (hS : 0 < S) (hm : m < N) (hSm : S ≤ m) :
    (∃ p q r, forward_backward_events S u has_labels f inR outR N
        = p ++ microbatch_events S u has_labels f inR outR (m - S)
            ++ q ++ microbatch_events S u has_labels f inR outR m ++ r)
    ∧ (microbatch_events S u has_labels f inR outR m).take 2
        = [EngineEvent.constraint (consume_constraint S u m f inR outR),
           EngineEvent.setInput inR m f]
    ∧ EngineEvent.subscribeForward outR (m - S)
        ∈ microbatch_events S u has_labels f inR outR (m - S)
    ∧ ((f = true ∨ u = false) →
        consume_constraint S u m f inR outR
          = ConstraintAction.waitForwardFuture (outR.map (fun pr => (pr, m - S))))
    ∧ (f = false → u = true →
        consume_constraint S u m f inR outR
          = ConstraintAction.fetchBackward ⟨m - S, Phase.BACKWARD⟩ inR) := by
  refine ⟨?_, ?_, ?_, ?_, ?_⟩
  · exact emitRange_two_blocks _ N (m - S) m (by omega) hm
  · cases has_labels <;> rfl
  · cases has_labels <;> simp [microbatch_events]
  · intro h
    unfold consume_constraint
    rcases h with h | h <;> simp [h, hSm]
  · intro hf hu
    unfold consume_constraint
    simp [hf, hu, hSm]

/-- Concrete instantiation of C3: a 2-stage 1F1B training run with 4
microbatches, at microbatch 2. -/
theorem C3_injection_window_witness :
    (∃ p q r, forward_backward_events 2 true true false [0] [1] 4
        = p ++ microbatch_events 2 true true false [0] [1] 0
            ++ q ++ microbatch_events 2 true true false [0] [1] 2 ++ r)
    ∧ (microbatch_events 2 true true false [0] [1] 2).take 2
        = [EngineEvent.constraint (consume_constraint 2 true 2 false [0] [1]),
           EngineEvent.setInput [0] 2 false]
    ∧ EngineEvent.subscribeForward [1] 0 ∈ microbatch_events 2 true true false [0] [1] 0
    ∧ ((false = true ∨ true = false) →
        consume_constraint 2 true 2 false [0] [1]
          = ConstraintAction.waitForwardFuture ([1].map (fun pr => (pr, 2 - 2))))
    ∧ (false = false → true = true →
        consume_constraint 2 true 2 false [0] [1]
          = ConstraintAction.fetchBackward ⟨2 - 2, Phase.BACKWARD⟩ [0]) :=
  C3_injection_window 2 true true false [0] [1] 4 2 (by decide) (by decide) (by decide)
